import Mathlib

/-!
Verification of the pdf-signer overlay engine (`src/app.py`).

Shallow embedding conventions:
* Python floats are modelled as exact rationals (`ℚ`): the claims under
  study are about the scale arithmetic, not about floating-point error.
* Python `int(q)` (truncation toward zero) is modelled by `pyInt`.
* The mutable `PDFSignatureApp` object is modelled by the `AppState`
  record; each Tk handler becomes a function `AppState → AppState`
  (plus an output component where the handler produces one).
* The PyMuPDF side effects of `save_pdf` (insert_image / insert_text)
  are modelled as a list of `Placement` values, in the order the code
  issues them; the Tk canvas drawing of an element is modelled by
  `draw_cmd`.
* `self.selected_element` holds an object reference in Python; here it
  is the index of that element in `signature_elements`.
* Python's Unicode `str.isalnum` is modelled by `Char.isAlphanum`
  (exact on the ASCII inputs all claims are about).
-/

namespace PdfSigner

/-- Python `int(q)`: truncation toward zero on rationals. -/
def pyInt (q : ℚ) : ℤ := if 0 ≤ q then ⌊q⌋ else ⌈q⌉

/-- `SignatureElement` dataclass (src/app.py lines 13-23).  `content`
is the text string for text elements; for image elements it is an
opaque identifier of the decoded raster (the code never reads pixels
when computing geometry). -/
structure SignatureElement where
  element_type : String
  content : String
  x : ℚ
  y : ℚ
  width : ℚ
  height : ℚ
  page_num : ℕ
  canvas_id : Option ℕ := none
  text_color : String := "black"
deriving DecidableEq, Repr

/-- The stored geometry of an element: the fields the spec calls the
"stored base-display coordinates". -/
def geomOf (e : SignatureElement) : ℚ × ℚ × ℚ × ℚ :=
  (e.x, e.y, e.width, e.height)

/-- The model-relevant mutable fields of `PDFSignatureApp`
(src/app.py lines 45-63).  `page_widths` is the list of page widths in
points of the open document (`pdf_doc[i].rect.width`); `pdf_loaded`
models `pdf_doc is not None`; `next_canvas_id` models Tk's increasing
canvas item ids; `status_message` models the status bar text. -/
structure AppState where
  pdf_loaded : Bool
  page_widths : List ℚ
  pdf_file_name : String
  signature_elements : List SignatureElement
  current_page : ℕ
  selected_element : Option ℕ
  drag_data : ℚ × ℚ
  canvas_width : ℚ
  page_scale_factor : ℚ
  zoom_level : ℚ
  base_scale_factor : ℚ
  signature_name : String
  next_canvas_id : ℕ
  status_message : String
deriving DecidableEq, Repr

/-! ## Rendering (src/app.py lines 527-566) -/

/-- What the canvas shows for one element.  For an image the code
resizes to `(int(w*z), int(h*z))` and places at `(x*z, y*z)`; for text
it places the string at `(x*z, y*z)` with font size
`max(8, int(h*z - 2))` and the element's colour
(src/app.py lines 536-564). -/
inductive DrawCmd where
  | image (x y : ℚ) (w h : ℤ) : DrawCmd
  | text (x y : ℚ) (fontSize : ℤ) (content : String) (color : String) : DrawCmd
deriving DecidableEq, Repr

/-- `draw_element_on_canvas`, output side: the draw command issued for
an element at zoom level `z` (src/app.py lines 536-564).  Elements
whose `element_type` is neither string draw nothing. -/
def draw_cmd (z : ℚ) (e : SignatureElement) : Option DrawCmd :=
  if e.element_type = "image" then
    some (.image (e.x * z) (e.y * z) (pyInt (e.width * z)) (pyInt (e.height * z)))
  else if e.element_type = "text" then
    some (.text (e.x * z) (e.y * z) (max 8 (pyInt (e.height * z - 2))) e.content e.text_color)
  else none

/-- `render_signatures` (src/app.py lines 527-534), state side: each
element on the current page is redrawn, which assigns it a fresh
canvas id (`element.canvas_id = self.canvas.create_...`); ids are
handed out in increasing order starting from `cid`.  Returns the
updated element list and the next free id. -/
def renderSignatures (page : ℕ) (cid : ℕ) :
    List SignatureElement → List SignatureElement × ℕ
  | [] => ([], cid)
  | e :: es =>
    if e.page_num = page then
      let r := renderSignatures page (cid + 1) es
      ({ e with canvas_id := some cid } :: r.1, r.2)
    else
      let r := renderSignatures page cid es
      (e :: r.1, r.2)

/-- `update_page_display` (src/app.py lines 451-525), model side:
clears the selection, recomputes `base_scale = canvas_width /
page_rect.width` (1.0 when the width is not positive), sets
`page_scale_factor = base_scale * zoom_level`, stores
`base_scale_factor = base_scale`, and redraws this page's elements.
A missing page width behaves like width 0 (the guard branch). -/
def update_page_display (st : AppState) : AppState :=
  if st.pdf_loaded then
    let pw := st.page_widths.getD st.current_page 0
    let base : ℚ := if 0 < pw then st.canvas_width / pw else 1
    let r := renderSignatures st.current_page st.next_canvas_id st.signature_elements
    { st with
      selected_element := none
      base_scale_factor := base
      page_scale_factor := base * st.zoom_level
      signature_elements := r.1
      next_canvas_id := r.2 }
  else st

/-! ## Zoom operations (src/app.py lines 380-402) -/

/-- `zoom_in`: multiply the zoom level by 1.2, clamp at 3.0, redisplay
(src/app.py lines 380-386). -/
def zoom_in (st : AppState) : AppState :=
  if st.pdf_loaded then
    let st1 := update_page_display { st with zoom_level := min 3 (st.zoom_level * (6/5)) }
    { st1 with status_message :=
        "Zoomed to " ++ toString (pyInt (st1.zoom_level * 100)) ++ "%" }
  else st

/-- `zoom_out`: divide the zoom level by 1.2, clamp at 0.5, redisplay
(src/app.py lines 388-394). -/
def zoom_out (st : AppState) : AppState :=
  if st.pdf_loaded then
    let st1 := update_page_display { st with zoom_level := max (1/2) (st.zoom_level / (6/5)) }
    { st1 with status_message :=
        "Zoomed to " ++ toString (pyInt (st1.zoom_level * 100)) ++ "%" }
  else st

/-- `zoom_reset`: set the zoom level to 1.0, redisplay
(src/app.py lines 396-402). -/
def zoom_reset (st : AppState) : AppState :=
  if st.pdf_loaded then
    let st1 := update_page_display { st with zoom_level := 1 }
    { st1 with status_message := "Zoom reset to 100%" }
  else st

inductive ZoomOp where
  | zin : ZoomOp
  | zout : ZoomOp
  | zreset : ZoomOp
deriving DecidableEq, Repr

def applyZoomOp : ZoomOp → AppState → AppState
  | .zin => zoom_in
  | .zout => zoom_out
  | .zreset => zoom_reset

def applyZoomOps (ops : List ZoomOp) (st : AppState) : AppState :=
  ops.foldl (fun s op => applyZoomOp op s) st

/-! ## Drag (src/app.py lines 949-970) and resize (lines 897-941) -/

/-- `on_canvas_drag`: with an element selected, the pointer delta from
the stored anchor is divided by the zoom level and added to the stored
position, and the anchor is updated to the current pointer position
(src/app.py lines 949-970).  The canvas item is moved by the raw
delta; no canvas id changes. -/
def on_canvas_drag (cx cy : ℚ) (st : AppState) : AppState :=
  match st.selected_element with
  | none => st
  | some i =>
    match st.signature_elements[i]? with
    | none => st
    | some e =>
      let dx := cx - st.drag_data.1
      let dy := cy - st.drag_data.2
      let e' := { e with
        x := e.x + dx / st.zoom_level
        y := e.y + dy / st.zoom_level }
      { st with
        signature_elements := st.signature_elements.set i e'
        drag_data := (cx, cy) }

/-- One resize step of `on_ctrl_scroll` on the selected element:
scale factor 1.1 on scroll-up, 0.9 on scroll-down, then
`new_width = min(500, max(20, w*s))`, `new_height = min(300, max(10, h*s))`
(src/app.py lines 897-916).  Position is untouched. -/
def resize_step (up : Bool) (e : SignatureElement) : SignatureElement :=
  let s : ℚ := if up then 11/10 else 9/10
  { e with
    width := min 500 (max 20 (e.width * s))
    height := min 300 (max 10 (e.height * s)) }

/-- `on_ctrl_scroll` (src/app.py lines 897-941): applies `resize_step`
to the selected element and redraws it (fresh canvas id). -/
def on_ctrl_scroll (up : Bool) (st : AppState) : AppState :=
  match st.selected_element with
  | none => st
  | some i =>
    match st.signature_elements[i]? with
    | none => st
    | some e =>
      let e' := { resize_step up e with canvas_id := some st.next_canvas_id }
      { st with
        signature_elements := st.signature_elements.set i e'
        next_canvas_id := st.next_canvas_id + 1 }

/-! ## Filename sanitization (src/app.py lines 1043-1053) -/

/-- Characters kept by the filter
`c.isalnum() or c in (' ', '-', '_')` (src/app.py line 1049). -/
def keepChar (c : Char) : Bool :=
  c.isAlphanum || c == ' ' || c == '-' || c == '_'

/-- `safe_name` computation (src/app.py lines 1049-1050): keep only
alphanumerics, spaces, hyphens and underscores; then `.rstrip()`
(which, on the filtered string, can only remove trailing spaces);
then replace every remaining space by an underscore. -/
def sanitize (name : String) : String :=
  let filtered := name.toList.filter keepChar
  let stripped := (filtered.reverse.dropWhile (fun c => c == ' ')).reverse
  String.mk (stripped.map (fun c => if c == ' ' then '_' else c))

/-- `output_filename` (src/app.py line 1052). -/
def output_filename (fileName sigName : String) : String :=
  fileName ++ "_signed_by_" ++ sanitize sigName ++ ".pdf"

/-! ## Export (src/app.py lines 1030-1163) -/

structure Rect where
  x0 : ℚ
  y0 : ℚ
  x1 : ℚ
  y1 : ℚ
deriving DecidableEq, Repr

/-- `color_map` (src/app.py lines 1099-1109), defaulting to black. -/
def colorMap (c : String) : ℚ × ℚ × ℚ :=
  if c = "black" then (0, 0, 0)
  else if c = "red" then (1, 0, 0)
  else if c = "blue" then (0, 0, 1)
  else if c = "green" then (0, 1/2, 0)
  else if c = "purple" then (1/2, 0, 1/2)
  else if c = "orange" then (1, 1/2, 0)
  else if c = "brown" then (6/10, 3/10, 0)
  else if c = "gray" then (1/2, 1/2, 1/2)
  else (0, 0, 0)

/-- One PyMuPDF placement command issued by `save_pdf`. -/
inductive Placement where
  | image (page : ℕ) (rect : Rect) : Placement
  | text (page : ℕ) (point : ℚ × ℚ) (content : String) (fontsize : ℚ)
      (color : ℚ × ℚ × ℚ) : Placement
  | stamp (page : ℕ) (point : ℚ × ℚ) (info : String) : Placement
deriving DecidableEq, Repr

/-- Placement of one element on its page (src/app.py lines 1067-1118):
an image fills `Rect(x/s, y/s, (x+w)/s, (y+h)/s)`; a text is inserted
at `Point(x/s, (y+h)/s)` with `fontsize = max(8, h/s)` and its mapped
colour.  `s` is `self.base_scale_factor`.  Other element types place
nothing. -/
def elementPlacement (s : ℚ) (page : ℕ) (e : SignatureElement) : Option Placement :=
  if e.element_type = "image" then
    some (.image page ⟨e.x / s, e.y / s, (e.x + e.width) / s, (e.y + e.height) / s⟩)
  else if e.element_type = "text" then
    some (.text page (e.x / s, (e.y + e.height) / s) e.content
      (max 8 (e.height / s)) (colorMap e.text_color))
  else none

/-- The per-page element pass of `save_pdf` (src/app.py lines
1059-1118): the page's elements, in insertion order. -/
def pagePlacements (s : ℚ) (elements : List SignatureElement) (page : ℕ) :
    List Placement :=
  (elements.filter (fun e => e.page_num == page)).filterMap (elementPlacement s page)

/-- Whether a page has at least one image-kind element
(`has_image_signature`, src/app.py line 1064). -/
def hasImageOn (elements : List SignatureElement) (page : ℕ) : Bool :=
  elements.any (fun e => e.page_num == page && e.element_type == "image")

/-- The first image-kind element on a page, in insertion order: the
element whose top-left positions the provenance stamp (the stamp loop
breaks after one successful insert, src/app.py lines 1131-1146). -/
def firstImageOn (elements : List SignatureElement) (page : ℕ) :
    Option SignatureElement :=
  elements.find? (fun e => e.page_num == page && e.element_type == "image")

/-- The provenance stamp text (src/app.py line 1125); `now` stands for
`datetime.now().strftime(...)`. -/
def stampText (name now : String) : String :=
  "Signed by " ++ name ++ "\n" ++ now

/-- The stamp pass of `save_pdf` (src/app.py lines 1124-1146): for
each page holding an image element (ascending page order, matching the
loop that filled `pages_with_signatures`), one stamp at the
document-space top-left `(x/s, y/s)` of that page's first image
element. -/
def stamps (s : ℚ) (name now : String) (elements : List SignatureElement)
    (pageCount : ℕ) : List Placement :=
  (List.range pageCount).filterMap (fun p =>
    (firstImageOn elements p).map (fun e =>
      .stamp p (e.x / s, e.y / s) (stampText name now)))

structure SaveOutput where
  filename : String
  placements : List Placement
deriving DecidableEq, Repr

/-- The success path of `save_pdf` (src/app.py lines 1043-1153): the
derived filename, then the placements issued in program order — all
pages' elements first (pages ascending, elements in insertion order),
then the provenance stamps.  Every division uses the single stored
`self.base_scale_factor`. -/
def save_output (now : String) (st : AppState) : SaveOutput :=
  let s := st.base_scale_factor
  let pageCount := st.page_widths.length
  { filename := output_filename st.pdf_file_name st.signature_name
    placements :=
      (List.range pageCount).flatMap (pagePlacements s st.signature_elements)
        ++ stamps s st.signature_name now st.signature_elements pageCount }

/-- `save_pdf` (src/app.py lines 1030-1163): guards (no document / no
elements) produce no output; otherwise the state is left untouched
apart from the status bar, and the output of `save_output` is
produced.  The body assigns no model field of `self`: the document is
re-opened fresh (`doc_copy = fitz.open(...)`) and image contents are
copied (`element.content.copy()`) before use. -/
def save_pdf_run (now : String) (st : AppState) : AppState × Option SaveOutput :=
  if !st.pdf_loaded then
    ({ st with status_message := "No PDF loaded" }, none)
  else if st.signature_elements.isEmpty then
    ({ st with status_message := "No signatures to save" }, none)
  else
    let out := save_output now st
    let nSigned := ((List.range st.page_widths.length).filter
      (fun p => hasImageOn st.signature_elements p)).length
    ({ st with status_message :=
        "PDF saved as: " ++ out.filename ++
          (if nSigned ≠ 0 then " (" ++ toString nSigned ++ " pages signed)" else "") },
     some out)

/-- The output component of `save_pdf`: `none` on the guard branches,
the `save_output` otherwise (shown to agree with `save_pdf_run` in
`save_pdf_run_snd`). -/
def save_pdf (now : String) (st : AppState) : Option SaveOutput :=
  if !st.pdf_loaded then none
  else if st.signature_elements.isEmpty then none
  else some (save_output now st)

/-! ## Derived helpers used in the statements -/

/-- The text element created by `add_text_signature`
(src/app.py lines 614-642): content "Text", position (100, 200),
width 200, height `font_size + 10 = 22`, colour black. -/
def default_text_element (page : ℕ) : SignatureElement :=
  { element_type := "text", content := "Text", x := 100, y := 200,
    width := 200, height := 12 + 10, page_num := page, text_color := "black" }

/-- The font size shown by a draw command (text commands only). -/
def fontSizeOfCmd : DrawCmd → Option ℤ
  | .text _ _ fs _ _ => some fs
  | _ => none

/-- The rendered font size of an element at a given zoom level. -/
def renderedFontSize (z : ℚ) (e : SignatureElement) : Option ℤ :=
  (draw_cmd z e).bind fontSizeOfCmd

/-- Whether a placement is a provenance stamp on page `p`. -/
def isStampOn (p : ℕ) : Placement → Bool
  | .stamp q _ _ => q == p
  | _ => false

/-- The page carried by a stamp placement (junk value 0 otherwise). -/
def stampPage : Placement → ℕ
  | .stamp q _ _ => q
  | _ => 0

/-- Iterated resize of an element (`n` successive ctrl+scroll steps in
the same direction). -/
def resizeIter (up : Bool) : ℕ → SignatureElement → SignatureElement
  | 0, e => e
  | n + 1, e => resizeIter up n (resize_step up e)

/-- One dimension of a resize step: `min hi (max lo (w * s))`,
matching src/app.py lines 907-912 with `(lo, hi)` the clamp bounds. -/
def clampStep (lo hi s w : ℚ) : ℚ :=
  min hi (max lo (w * s))

/-- Iterated `clampStep`. -/
def clampIter (lo hi s : ℚ) : ℕ → ℚ → ℚ
  | 0, w => w
  | n + 1, w => clampIter lo hi s n (clampStep lo hi s w)

/-- A whole pointer-drag: the fold of `on_canvas_drag` over the
successive pointer positions reported while the button is held. -/
def dragSeq (ps : List (ℚ × ℚ)) (st : AppState) : AppState :=
  ps.foldl (fun s p => on_canvas_drag p.1 p.2 s) st

/-- Sanitization as the claim words it (comparison definition, written
from the claim, not from the source): keep alphanumerics, spaces,
hyphens and underscores, replace every space with an underscore, strip
everything else — with no trailing-space removal. -/
def sanitizeClaimed (name : String) : String :=
  String.mk ((name.toList.filter keepChar).map (fun c => if c == ' ' then '_' else c))

/-! ## Concrete example states (for witnesses and counterexamples) -/

/-- An image element at base-display (100, 100) sized 150×75 — the
default placement of `add_image_signature` (src/app.py lines 598-604). -/
def exImageElem : SignatureElement :=
  { element_type := "image", content := "sig", x := 100, y := 100,
    width := 150, height := 75, page_num := 0 }

/-- A loaded one-page document, page width 612 pt, canvas 700 px, one
image element — the spec's Scenario A. -/
def exStateA : AppState :=
  { pdf_loaded := true, page_widths := [612], pdf_file_name := "doc",
    signature_elements := [exImageElem], current_page := 0,
    selected_element := none, drag_data := (0, 0), canvas_width := 700,
    page_scale_factor := 1, zoom_level := 1, base_scale_factor := 1,
    signature_name := "USER", next_canvas_id := 1, status_message := "Ready" }

/-- A two-page document whose pages have different widths (612 pt and
306 pt), displaying page 0, with one image element anchored to page 1. -/
def exStateTwoPages : AppState :=
  { exStateA with
    page_widths := [612, 306]
    signature_elements := [{ exImageElem with page_num := 1 }] }

/-- `exStateA` with the element selected and a drag anchor at (10, 10). -/
def exStateDrag : AppState :=
  { exStateA with selected_element := some 0, drag_data := (10, 10) }

/-- A text element with mixed-kind page content, for the stamp claims:
page 0 holds a text element and an image element, page 1 holds only a
text element. -/
def exStateStamp : AppState :=
  { exStateA with
    page_widths := [612, 612]
    signature_elements :=
      [default_text_element 0, exImageElem, default_text_element 1] }

/-! # Theorems -/

/-! ## C5: Scenario A numbers -/

/-- C5 counterexample: on Scenario A (page width 612 pt, canvas
700 px, image element at base-display (100, 100, 150, 75)) the
exported document rectangle is exactly
(612/7, 612/7, 1530/7, 153) = (87.43, 87.43, 218.57, 153.00); its
fourth value is 153, which misses the claimed 152.56 by 0.44 — far
outside any rounding tolerance (and the third, 218.571, also misses
the claimed 218.56). -/
theorem C5_counterexample :
    save_pdf "T" (update_page_display exStateA)
      = some { filename := "doc_signed_by_USER.pdf"
               placements :=
                 [.image 0 ⟨612/7, 612/7, 1530/7, 153⟩,
                  .stamp 0 (612/7, 612/7) "Signed by USER\nT"] }
    ∧ (1/20 : ℚ) < |153 - 15256/100| := by
  constructor
  · simp [save_pdf, save_pdf_run, save_output, exStateA, exImageElem,
      update_page_display, renderSignatures, pagePlacements, elementPlacement,
      stamps, firstImageOn, stampText, hasImageOn, output_filename, sanitize,
      keepChar, List.range_succ, List.filter, List.filterMap, List.find?]
    norm_num
  · rw [lt_abs]; norm_num

/-- C5 (amended): with page width 612 pt and canvas width 700 px,
`baseScale = 700/612 ≈ 1.1438`, and exporting the image element stored
at base-display (100, 100, 150, 75) yields the document rectangle
(100/baseScale, 100/baseScale, 250/baseScale, 175/baseScale)
= (612/7, 612/7, 1530/7, 153), i.e. (87.43, 87.43, 218.57, 153.00)
within 0.01. -/
theorem C5_scenarioA :
    (update_page_display exStateA).base_scale_factor = 700/612
    ∧ save_pdf "T" (update_page_display exStateA)
      = some { filename := "doc_signed_by_USER.pdf"
               placements :=
                 [.image 0 ⟨100/(700/612), 100/(700/612), 250/(700/612), 175/(700/612)⟩,
                  .stamp 0 (100/(700/612), 100/(700/612)) "Signed by USER\nT"] }
    ∧ |(100 : ℚ)/(700/612) - 8743/100| ≤ 1/100
    ∧ |(250 : ℚ)/(700/612) - 21857/100| ≤ 1/100
    ∧ |(175 : ℚ)/(700/612) - 153| ≤ 1/100 := by
  refine ⟨by simp [update_page_display, exStateA], ?_, ?_, ?_, ?_⟩
  · simp [save_pdf, save_pdf_run, save_output, exStateA, exImageElem,
      update_page_display, renderSignatures, pagePlacements, elementPlacement,
      stamps, firstImageOn, stampText, hasImageOn, output_filename, sanitize,
      keepChar, List.range_succ, List.filter, List.filterMap, List.find?]
    norm_num
  · rw [abs_sub_le_iff]; norm_num
  · rw [abs_sub_le_iff]; norm_num
  · rw [abs_sub_le_iff]; norm_num

/-! ## C6: text font size -/

/-- C6 counterexample: at zoom 0.5 the default text element (stored
height 22) renders at font size `max(8, int(22·0.5 − 2)) = 9`, not the
10 the claim's formula `max(8, h−2)·z` predicts: the code zooms the
height before subtracting 2, it does not scale the base-display font
size. -/
theorem C6_counterexample :
    renderedFontSize (1/2) (default_text_element 0) = some 9
    ∧ (max 8 (22 - 2) : ℚ) * (1/2) = 10
    ∧ (9 : ℚ) ≠ 10 := by
  refine ⟨?_, by norm_num, by norm_num⟩
  simp [renderedFontSize, draw_cmd, default_text_element, fontSizeOfCmd, pyInt]
  norm_num

/-- C6 (amended): for every text element with stored height `h` and
zoom `z ∈ [0.5, 3]`, the rendered font size is
`max(8, int(h·z − 2))` — the zoomed height minus 2, truncated and
clamped below at 8 (so small heights clamp rather than error); the
default height 22 renders at size 20 at zoom 1.0 and at size 9 (not
10) at zoom 0.5. -/
theorem C6_font_size (e : SignatureElement) (z : ℚ)
    (hty : e.element_type = "text") (hz1 : 1/2 ≤ z) (hz2 : z ≤ 3) :
    renderedFontSize z e = some (max 8 (pyInt (e.height * z - 2)))
    ∧ (∀ fs, renderedFontSize z e = some fs → 8 ≤ fs)
    ∧ renderedFontSize 1 (default_text_element 0) = some 20
    ∧ renderedFontSize (1/2) (default_text_element 0) = some 9 := by
  refine ⟨?_, ?_, ?_, ?_⟩
  · simp [renderedFontSize, draw_cmd, hty, fontSizeOfCmd]
  · intro fs hfs
    simp [renderedFontSize, draw_cmd, hty, fontSizeOfCmd] at hfs
    omega
  · norm_num [renderedFontSize, draw_cmd, default_text_element, fontSizeOfCmd, pyInt]
    rfl
  · norm_num [renderedFontSize, draw_cmd, default_text_element, fontSizeOfCmd, pyInt]
    rfl

/-- C6 witness: the theorem applied to the default text element at
zoom 0.5. -/
theorem C6_witness :
    (default_text_element 0).element_type = "text"
    ∧ (1/2 : ℚ) ≤ 1/2 ∧ (1/2 : ℚ) ≤ 3
    ∧ renderedFontSize (1/2) (default_text_element 0)
        = some (max 8 (pyInt ((default_text_element 0).height * (1/2) - 2))) :=
  ⟨rfl, le_refl _, by norm_num,
    (C6_font_size (default_text_element 0) (1/2) rfl (le_refl _) (by norm_num)).1⟩

/-! ## C7: resize policy -/

theorem clampStep_le_hi (lo hi s w : ℚ) : clampStep lo hi s w ≤ hi :=
  min_le_left _ _

theorem lo_le_clampStep (lo hi s w : ℚ) (h : lo ≤ hi) :
    lo ≤ clampStep lo hi s w :=
  le_min h (le_max_left _ _)

theorem clampIter_fixed_hi (lo hi s : ℚ) (hlh : lo ≤ hi) (h0 : 0 ≤ hi)
    (hs : 1 ≤ s) : ∀ n, clampIter lo hi s n hi = hi := by
  intro n
  induction n with
  | zero => rfl
  | succ n ih =>
    have hmul : hi ≤ hi * s := le_mul_of_one_le_right h0 hs
    have hstep : clampStep lo hi s hi = hi := by
      unfold clampStep
      rw [max_eq_right (hlh.trans hmul), min_eq_left hmul]
    show clampIter lo hi s n (clampStep lo hi s hi) = hi
    rw [hstep]; exact ih

theorem clampIter_fixed_lo (lo hi s : ℚ) (hlh : lo ≤ hi) (h0 : 0 ≤ lo)
    (hs : s ≤ 1) : ∀ n, clampIter lo hi s n lo = lo := by
  intro n
  induction n with
  | zero => rfl
  | succ n ih =>
    have hmul : lo * s ≤ lo := mul_le_of_le_one_right h0 hs
    have hstep : clampStep lo hi s lo = lo := by
      unfold clampStep
      rw [max_eq_left hmul, min_eq_right hlh]
    show clampIter lo hi s n (clampStep lo hi s lo) = lo
    rw [hstep]; exact ih

theorem clampIter_range (lo hi s : ℚ) (hlh : lo ≤ hi) :
    ∀ n w, lo ≤ w → w ≤ hi →
      lo ≤ clampIter lo hi s n w ∧ clampIter lo hi s n w ≤ hi := by
  intro n
  induction n with
  | zero => exact fun w h1 h2 => ⟨h1, h2⟩
  | succ n ih =>
    intro w _ _
    exact ih (clampStep lo hi s w) (lo_le_clampStep lo hi s w hlh)
      (clampStep_le_hi lo hi s w)

theorem clampIter_reach_hi (lo hi s : ℚ) (hlo : 0 < lo) (hlh : lo ≤ hi)
    (hs : 1 ≤ s) :
    ∀ n w, lo ≤ w → w ≤ hi → hi ≤ s ^ n * w → clampIter lo hi s n w = hi := by
  intro n
  induction n with
  | zero =>
    intro w _ hwhi hpow
    rw [pow_zero, one_mul] at hpow
    exact le_antisymm hwhi hpow
  | succ n ih =>
    intro w hlw hwhi hpow
    have hw0 : (0 : ℚ) ≤ w := (hlo.le.trans hlw)
    rcases le_or_lt hi (w * s) with hcase | hcase
    · have hstep : clampStep lo hi s w = hi := by
        unfold clampStep
        rw [max_eq_right ((hlh.trans hcase)), min_eq_left hcase]
      show clampIter lo hi s n (clampStep lo hi s w) = hi
      rw [hstep]
      exact clampIter_fixed_hi lo hi s hlh (hlo.le.trans hlh) hs n
    · have hws : w ≤ w * s := le_mul_of_one_le_right hw0 hs
      have hstep : clampStep lo hi s w = w * s := by
        unfold clampStep
        rw [max_eq_right (hlw.trans hws), min_eq_right hcase.le]
      show clampIter lo hi s n (clampStep lo hi s w) = hi
      rw [hstep]
      refine ih (w * s) (hlw.trans hws) hcase.le ?_
      calc hi ≤ s ^ (n + 1) * w := hpow
        _ = s ^ n * (w * s) := by ring

theorem clampIter_reach_lo (lo hi s : ℚ) (hlo : 0 < lo) (hlh : lo ≤ hi)
    (hs : s ≤ 1) :
    ∀ n w, lo ≤ w → w ≤ hi → s ^ n * w ≤ lo → clampIter lo hi s n w = lo := by
  intro n
  induction n with
  | zero =>
    intro w hlw _ hpow
    rw [pow_zero, one_mul] at hpow
    exact le_antisymm hpow hlw
  | succ n ih =>
    intro w hlw hwhi hpow
    have hw0 : (0 : ℚ) ≤ w := hlo.le.trans hlw
    rcases le_or_lt (w * s) lo with hcase | hcase
    · have hstep : clampStep lo hi s w = lo := by
        unfold clampStep
        rw [max_eq_left hcase, min_eq_right hlh]
      show clampIter lo hi s n (clampStep lo hi s w) = lo
      rw [hstep]
      exact clampIter_fixed_lo lo hi s hlh hlo.le hs n
    · have hws : w * s ≤ w := mul_le_of_le_one_right hw0 hs
      have hstep : clampStep lo hi s w = w * s := by
        unfold clampStep
        rw [max_eq_right hcase.le, min_eq_right (hws.trans hwhi)]
      show clampIter lo hi s n (clampStep lo hi s w) = lo
      rw [hstep]
      refine ih (w * s) hcase.le (hws.trans hwhi) ?_
      calc s ^ n * (w * s) = s ^ (n + 1) * w := by ring
        _ ≤ lo := hpow

theorem resizeIter_width (up : Bool) :
    ∀ n (e : SignatureElement),
      (resizeIter up n e).width
        = clampIter 20 500 (if up then 11/10 else 9/10) n e.width := by
  intro n
  induction n with
  | zero => intro e; rfl
  | succ n ih =>
    intro e
    show (resizeIter up n (resize_step up e)).width
        = clampIter 20 500 (if up then 11/10 else 9/10) n
            (clampStep 20 500 (if up then 11/10 else 9/10) e.width)
    rw [ih]
    rfl

theorem resizeIter_height (up : Bool) :
    ∀ n (e : SignatureElement),
      (resizeIter up n e).height
        = clampIter 10 300 (if up then 11/10 else 9/10) n e.height := by
  intro n
  induction n with
  | zero => intro e; rfl
  | succ n ih =>
    intro e
    show (resizeIter up n (resize_step up e)).height
        = clampIter 10 300 (if up then 11/10 else 9/10) n
            (clampStep 10 300 (if up then 11/10 else 9/10) e.height)
    rw [ih]
    rfl

/-- C7 counterexample: one shrink step on the default image element
(width 150) yields width 150·0.9 = 135, not the 150·(10/11) ≈ 136.36
the claimed reciprocal factor 0.909… predicts. -/
theorem C7_counterexample :
    (resize_step false exImageElem).width = 135
    ∧ (135 : ℚ) ≠ 150 * (10/11) := by
  constructor
  · show min 500 (max 20 (150 * (9/10) : ℚ)) = 135
    norm_num
  · norm_num

/-- C7 (amended): each ctrl+scroll resize step multiplies the size by
1.1 when enlarging and by 0.9 (not 1/1.1) when shrinking, then clamps
to width ∈ [20, 500] and height ∈ [10, 300]; position never changes;
from any in-range size every iterate stays in range, 40 enlarge steps
reach exactly (500, 300), and 40 shrink steps reach exactly (20, 10). -/
theorem C7_resize_clamping (e : SignatureElement)
    (hw1 : 20 ≤ e.width) (hw2 : e.width ≤ 500)
    (hh1 : 10 ≤ e.height) (hh2 : e.height ≤ 300) :
    (∀ up, (resize_step up e).width
        = min 500 (max 20 (e.width * (if up then 11/10 else 9/10)))
      ∧ (resize_step up e).height
        = min 300 (max 10 (e.height * (if up then 11/10 else 9/10)))
      ∧ (resize_step up e).x = e.x ∧ (resize_step up e).y = e.y)
    ∧ (∀ up n, 20 ≤ (resizeIter up n e).width
        ∧ (resizeIter up n e).width ≤ 500
        ∧ 10 ≤ (resizeIter up n e).height
        ∧ (resizeIter up n e).height ≤ 300)
    ∧ (resizeIter true 40 e).width = 500 ∧ (resizeIter true 40 e).height = 300
    ∧ (resizeIter false 40 e).width = 20 ∧ (resizeIter false 40 e).height = 10 := by
  have hpow11 : (25 : ℚ) ≤ (11/10) ^ 40 := by norm_num
  have hpow11h : (30 : ℚ) ≤ (11/10) ^ 40 := by norm_num
  have hpow9 : ((9:ℚ)/10) ^ 40 * 500 ≤ 20 := by norm_num
  have hpow9h : ((9:ℚ)/10) ^ 40 * 300 ≤ 10 := by norm_num
  refine ⟨fun up => ⟨rfl, rfl, rfl, rfl⟩, ?_, ?_, ?_, ?_, ?_⟩
  · intro up n
    have hw := clampIter_range 20 500 (if up then 11/10 else 9/10)
      (by norm_num) n e.width hw1 hw2
    have hh := clampIter_range 10 300 (if up then 11/10 else 9/10)
      (by norm_num) n e.height hh1 hh2
    rw [resizeIter_width, resizeIter_height]
    exact ⟨hw.1, hw.2, hh.1, hh.2⟩
  · rw [resizeIter_width,
      show (if (true : Bool) = true then (11:ℚ)/10 else 9/10) = 11/10 from rfl]
    refine clampIter_reach_hi 20 500 (11/10) (by norm_num) (by norm_num)
      (by norm_num) 40 e.width hw1 hw2 ?_
    calc (500 : ℚ) = 25 * 20 := by norm_num
      _ ≤ (11/10) ^ 40 * e.width := by
          apply mul_le_mul hpow11 hw1 (by norm_num)
          positivity
  · rw [resizeIter_height,
      show (if (true : Bool) = true then (11:ℚ)/10 else 9/10) = 11/10 from rfl]
    refine clampIter_reach_hi 10 300 (11/10) (by norm_num) (by norm_num)
      (by norm_num) 40 e.height hh1 hh2 ?_
    calc (300 : ℚ) = 30 * 10 := by norm_num
      _ ≤ (11/10) ^ 40 * e.height := by
          apply mul_le_mul hpow11h hh1 (by norm_num)
          positivity
  · rw [resizeIter_width,
      show (if (false : Bool) = true then (11:ℚ)/10 else 9/10) = 9/10 from rfl]
    refine clampIter_reach_lo 20 500 (9/10) (by norm_num) (by norm_num)
      (by norm_num) 40 e.width hw1 hw2 ?_
    calc ((9:ℚ)/10) ^ 40 * e.width ≤ (9/10) ^ 40 * 500 := by
          apply mul_le_mul_of_nonneg_left hw2
          positivity
      _ ≤ 20 := hpow9
  · rw [resizeIter_height,
      show (if (false : Bool) = true then (11:ℚ)/10 else 9/10) = 9/10 from rfl]
    refine clampIter_reach_lo 10 300 (9/10) (by norm_num) (by norm_num)
      (by norm_num) 40 e.height hh1 hh2 ?_
    calc ((9:ℚ)/10) ^ 40 * e.height ≤ (9/10) ^ 40 * 300 := by
          apply mul_le_mul_of_nonneg_left hh2
          positivity
      _ ≤ 10 := hpow9h

/-- C7 witness: the theorem applied to the default image element
(150 × 75). -/
theorem C7_witness :
    (20 : ℚ) ≤ 150 ∧ (150 : ℚ) ≤ 500 ∧ (10 : ℚ) ≤ 75 ∧ (75 : ℚ) ≤ 300
    ∧ (resizeIter true 40 exImageElem).width = 500
    ∧ (resizeIter false 40 exImageElem).width = 20 :=
  have h := C7_resize_clamping exImageElem (by norm_num [exImageElem])
    (by norm_num [exImageElem]) (by norm_num [exImageElem])
    (by norm_num [exImageElem])
  ⟨by norm_num, by norm_num, by norm_num, by norm_num,
    h.2.2.1, h.2.2.2.2.1⟩

/-! ## C9: output filename sanitization -/

/-- C9 counterexample: on the annotator name "A " (trailing space) the
code's sanitization yields "A" — the `.rstrip()` removes the trailing
space before spaces are replaced — while the claimed rule (replace
every space with an underscore, no stripping) yields "A_". -/
theorem C9_counterexample :
    sanitize "A " = "A" ∧ sanitizeClaimed "A " = "A_"
    ∧ sanitize "A " ≠ sanitizeClaimed "A " := by
  refine ⟨by decide, by decide, by decide⟩

/-- C9 (amended): the output filename combines the base name, the word
"signed" and the sanitized annotator name; sanitization keeps exactly
alphanumerics, spaces, hyphens and underscores, then strips trailing
spaces, then replaces each remaining space with an underscore — so a
trailing space is removed (not turned into a trailing underscore), a
'/' or '.' is dropped, and the result contains only alphanumerics,
hyphens and underscores. -/
theorem C9_filename_sanitization :
    (∀ base name, output_filename base name
        = base ++ "_signed_by_" ++ sanitize name ++ ".pdf")
    ∧ (∀ name, (sanitize name).toList.all
        (fun c => c.isAlphanum || c == '-' || c == '_') = true)
    ∧ sanitize "A " = "A"
    ∧ sanitize "John Doe" = "John_Doe"
    ∧ sanitize "a/b.c" = "abc" := by
  refine ⟨fun base name => rfl, ?_, by decide, by decide, by decide⟩
  intro name
  rw [List.all_eq_true]
  intro c hc
  have hc' : c ∈ (((name.toList.filter keepChar).reverse.dropWhile
      (fun c => c == ' ')).reverse).map (fun c => if c == ' ' then '_' else c) := hc
  rw [List.mem_map] at hc'
  obtain ⟨a, ha, hac⟩ := hc'
  have hmem : a ∈ name.toList.filter keepChar := by
    rw [List.mem_reverse] at ha
    have := (List.dropWhile_sublist (fun c : Char => c == ' ')).mem ha
    rwa [List.mem_reverse] at this
  have hkeep : keepChar a = true := (List.mem_filter.mp hmem).2
  by_cases hsp : a == ' '
  · subst hac
    simp [hsp]
  · subst hac
    unfold keepChar at hkeep
    simp only [hsp, Bool.if_false_right, Bool.if_true_left] at *
    simp only [if_neg hsp]
    rcases Bool.or_eq_true_iff.mp hkeep with h | h
    · rcases Bool.or_eq_true_iff.mp h with h' | h'
      · rcases Bool.or_eq_true_iff.mp h' with h'' | h''
        · simp [h'']
        · exact absurd h'' hsp
      · simp [h']
    · simp [h]

/-! ## C10: export leaves the model intact -/

/-- C10: `save_pdf` never mutates the in-memory model, on any branch
(missing document, empty set, or success): the element list — hence
membership, order, and every element's stored `x`, `y`, `width`,
`height`, `page_num`, `content`, `text_color` — and the document,
viewport and selection state all survive unchanged; only the status
message is written. -/
theorem C10_save_model_intact (now : String) (st : AppState) :
    ((save_pdf_run now st).1.signature_elements = st.signature_elements)
    ∧ (save_pdf_run now st).1.pdf_loaded = st.pdf_loaded
    ∧ (save_pdf_run now st).1.page_widths = st.page_widths
    ∧ (save_pdf_run now st).1.pdf_file_name = st.pdf_file_name
    ∧ (save_pdf_run now st).1.current_page = st.current_page
    ∧ (save_pdf_run now st).1.selected_element = st.selected_element
    ∧ (save_pdf_run now st).1.zoom_level = st.zoom_level
    ∧ (save_pdf_run now st).1.base_scale_factor = st.base_scale_factor
    ∧ (save_pdf_run now st).1.page_scale_factor = st.page_scale_factor
    ∧ (save_pdf_run now st).1.signature_name = st.signature_name := by
  unfold save_pdf_run
  split_ifs <;> simp

/-! ## C3: zoom operations never touch stored coordinates -/

theorem renderSignatures_geom (page : ℕ) :
    ∀ (es : List SignatureElement) (cid : ℕ),
      (renderSignatures page cid es).1.map geomOf = es.map geomOf := by
  intro es
  induction es with
  | nil => intro cid; rfl
  | cons e es ih =>
    intro cid
    unfold renderSignatures
    by_cases h : e.page_num = page
    · simp only [if_pos h, List.map_cons]
      exact congrArg (geomOf e :: ·) (ih (cid + 1))
    · simp only [if_neg h, List.map_cons]
      exact congrArg (geomOf e :: ·) (ih cid)

theorem update_page_display_geom (st : AppState) :
    (update_page_display st).signature_elements.map geomOf
      = st.signature_elements.map geomOf := by
  unfold update_page_display
  split
  · exact renderSignatures_geom st.current_page st.signature_elements st.next_canvas_id
  · rfl

theorem zoom_in_geom (st : AppState) :
    (zoom_in st).signature_elements.map geomOf
      = st.signature_elements.map geomOf := by
  unfold zoom_in
  split
  · exact update_page_display_geom _
  · rfl

theorem zoom_out_geom (st : AppState) :
    (zoom_out st).signature_elements.map geomOf
      = st.signature_elements.map geomOf := by
  unfold zoom_out
  split
  · exact update_page_display_geom _
  · rfl

theorem zoom_reset_geom (st : AppState) :
    (zoom_reset st).signature_elements.map geomOf
      = st.signature_elements.map geomOf := by
  unfold zoom_reset
  split
  · exact update_page_display_geom _
  · rfl

theorem applyZoomOp_geom (op : ZoomOp) (st : AppState) :
    (applyZoomOp op st).signature_elements.map geomOf
      = st.signature_elements.map geomOf := by
  cases op
  · exact zoom_in_geom st
  · exact zoom_out_geom st
  · exact zoom_reset_geom st

/-- C3: no finite sequence of zoom operations (zoomIn, zoomOut,
zoomReset) changes any element's stored `x`, `y`, `width` or `height`:
the geometry of the whole element list, element by element and in
order, is the same before and after.  (Each operation rescales only
the zoom level and redraws; redrawing reassigns canvas ids, never
stored coordinates.) -/
theorem C3_zoom_preserves_geometry (ops : List ZoomOp) (st : AppState) :
    (applyZoomOps ops st).signature_elements.map geomOf
      = st.signature_elements.map geomOf := by
  induction ops generalizing st with
  | nil => rfl
  | cons op ops ih =>
    show (applyZoomOps ops (applyZoomOp op st)).signature_elements.map geomOf
        = st.signature_elements.map geomOf
    rw [ih (applyZoomOp op st), applyZoomOp_geom]

/-! ## C1: export is independent of the zoom level at save time -/

theorem save_pdf_run_snd (now : String) (st : AppState) :
    (save_pdf_run now st).2 = save_pdf now st := by
  unfold save_pdf_run save_pdf
  split_ifs <;> rfl

theorem save_pdf_congr (now : String) (st1 st2 : AppState)
    (h1 : st1.pdf_loaded = st2.pdf_loaded)
    (h2 : st1.signature_elements = st2.signature_elements)
    (h3 : st1.page_widths = st2.page_widths)
    (h4 : st1.pdf_file_name = st2.pdf_file_name)
    (h5 : st1.signature_name = st2.signature_name)
    (h6 : st1.base_scale_factor = st2.base_scale_factor) :
    save_pdf now st1 = save_pdf now st2 := by
  unfold save_pdf save_output output_filename
  rw [h1, h2, h3, h4, h5, h6]

/-- C1: exporting the same annotation set is independent of the zoom
level active at save time: setting any two zoom levels in [0.5, 3] and
refreshing the display (which recomputes the base scale, as every zoom
operation does) yields identical export output — filename and all
document-space placement rectangles and text insertion points — since
the export divides stored base-display coordinates only by the base
scale factor, into which zoom never enters. -/
theorem C1_export_zoom_independent (st : AppState) (now : String) (z1 z2 : ℚ)
    (h1 : 1/2 ≤ z1) (h2 : z1 ≤ 3) (h3 : 1/2 ≤ z2) (h4 : z2 ≤ 3) :
    save_pdf now (update_page_display { st with zoom_level := z1 })
      = save_pdf now (update_page_display { st with zoom_level := z2 }) := by
  cases hl : st.pdf_loaded <;>
    apply save_pdf_congr <;> simp [update_page_display, hl]

/-- C1 witness: Scenario A exported at zoom 1.0 and at zoom 2.5. -/
theorem C1_witness :
    (1/2 : ℚ) ≤ 1 ∧ (1 : ℚ) ≤ 3 ∧ (1/2 : ℚ) ≤ 5/2 ∧ (5/2 : ℚ) ≤ 3
    ∧ save_pdf "T" (update_page_display { exStateA with zoom_level := 1 })
        = save_pdf "T" (update_page_display { exStateA with zoom_level := 5/2 }) :=
  ⟨by norm_num, by norm_num, by norm_num, by norm_num,
    C1_export_zoom_independent exStateA "T" 1 (5/2)
      (by norm_num) (by norm_num) (by norm_num) (by norm_num)⟩

/-! ## C2: drag moves the stored position by the pointer delta / zoom -/

theorem on_canvas_drag_spec (cx cy : ℚ) (st : AppState) (i : ℕ)
    (e : SignatureElement)
    (hsel : st.selected_element = some i)
    (hget : st.signature_elements[i]? = some e) :
    on_canvas_drag cx cy st = { st with
      signature_elements := st.signature_elements.set i
        { e with
          x := e.x + (cx - st.drag_data.1) / st.zoom_level
          y := e.y + (cy - st.drag_data.2) / st.zoom_level }
      drag_data := (cx, cy) } := by
  unfold on_canvas_drag
  simp only [hsel, hget]

theorem elem_update_congr (e : SignatureElement) (a b a' b' : ℚ)
    (ha : a = a') (hb : b = b') :
    ({ e with x := a, y := b } : SignatureElement)
      = { e with x := a', y := b' } := by
  rw [ha, hb]

theorem div_telescope (a b c z : ℚ) : (a - b) / z + (c - a) / z = (c - b) / z := by
  rw [div_add_div_same]
  congr 1
  ring

theorem dragSeq_spec (ps : List (ℚ × ℚ)) :
    ∀ (st : AppState) (i : ℕ) (e : SignatureElement),
      st.selected_element = some i →
      st.signature_elements[i]? = some e →
      ((dragSeq ps st).signature_elements[i]? = some { e with
          x := e.x + ((ps.getLastD st.drag_data).1 - st.drag_data.1) / st.zoom_level
          y := e.y + ((ps.getLastD st.drag_data).2 - st.drag_data.2) / st.zoom_level }
        ∧ (dragSeq ps st).drag_data = ps.getLastD st.drag_data
        ∧ (dragSeq ps st).selected_element = some i
        ∧ (dragSeq ps st).zoom_level = st.zoom_level) := by
  induction ps with
  | nil =>
    intro st i e hsel hget
    refine ⟨?_, rfl, hsel, rfl⟩
    show st.signature_elements[i]? = _
    rw [hget]
    refine congrArg some (Eq.symm ?_)
    have hx : e.x + (st.drag_data.1 - st.drag_data.1) / st.zoom_level = e.x := by
      rw [sub_self, zero_div, add_zero]
    have hy : e.y + (st.drag_data.2 - st.drag_data.2) / st.zoom_level = e.y := by
      rw [sub_self, zero_div, add_zero]
    calc ({ e with
            x := e.x + (st.drag_data.1 - st.drag_data.1) / st.zoom_level
            y := e.y + (st.drag_data.2 - st.drag_data.2) / st.zoom_level }
          : SignatureElement)
        = { e with x := e.x, y := e.y } := elem_update_congr e _ _ _ _ hx hy
      _ = e := by cases e; rfl
  | cons p ps ih =>
    intro st i e hsel hget
    have hlen : i < st.signature_elements.length := by
      rcases List.getElem?_eq_some.mp hget with ⟨h, _⟩
      exact h
    have hstep := on_canvas_drag_spec p.1 p.2 st i e hsel hget
    have hsel1 : (on_canvas_drag p.1 p.2 st).selected_element = some i := by
      rw [hstep]; exact hsel
    have hget1 : (on_canvas_drag p.1 p.2 st).signature_elements[i]?
        = some { e with
            x := e.x + (p.1 - st.drag_data.1) / st.zoom_level
            y := e.y + (p.2 - st.drag_data.2) / st.zoom_level } := by
      rw [hstep]
      exact List.getElem?_set_eq_of_lt _ hlen
    obtain ⟨H1, H2, H3, H4⟩ := ih (on_canvas_drag p.1 p.2 st) i _ hsel1 hget1
    have hd1 : (on_canvas_drag p.1 p.2 st).drag_data = p := by rw [hstep]
    have hz1 : (on_canvas_drag p.1 p.2 st).zoom_level = st.zoom_level := by
      rw [hstep]
    have hfold : dragSeq (p :: ps) st = dragSeq ps (on_canvas_drag p.1 p.2 st) := rfl
    refine ⟨?_, ?_, ?_, ?_⟩
    · rw [hfold, H1, hd1, hz1, List.getLastD_cons]
      refine congrArg some ?_
      refine elem_update_congr e _ _ _ _ ?_ ?_
      · rw [add_assoc]
        exact congrArg (e.x + ·) (div_telescope p.1 st.drag_data.1 _ st.zoom_level)
      · rw [add_assoc]
        exact congrArg (e.y + ·) (div_telescope p.2 st.drag_data.2 _ st.zoom_level)
    · rw [hfold, H2, hd1, List.getLastD_cons]
    · rw [hfold]; exact H3
    · rw [hfold, H4, hz1]

/-- C2: with an element selected at zoom `z ∈ [0.5, 3]`, one drag move
whose on-screen pointer position goes from the stored anchor to
`(cx, cy)` changes the stored base-display position by exactly the
on-screen delta divided by `z` and re-anchors at `(cx, cy)`; and any
finite sequence of incremental moves nets out to (final pointer −
initial anchor)/z, so the incremental handler accumulates no drift. -/
theorem C2_drag_delta (st : AppState) (i : ℕ) (e : SignatureElement)
    (cx cy : ℚ) (ps : List (ℚ × ℚ))
    (hsel : st.selected_element = some i)
    (hget : st.signature_elements[i]? = some e)
    (hz1 : 1/2 ≤ st.zoom_level) (hz2 : st.zoom_level ≤ 3) :
    ((on_canvas_drag cx cy st).signature_elements[i]? = some { e with
        x := e.x + (cx - st.drag_data.1) / st.zoom_level
        y := e.y + (cy - st.drag_data.2) / st.zoom_level }
      ∧ (on_canvas_drag cx cy st).drag_data = (cx, cy))
    ∧ (dragSeq ps st).signature_elements[i]? = some { e with
        x := e.x + ((ps.getLastD st.drag_data).1 - st.drag_data.1) / st.zoom_level
        y := e.y + ((ps.getLastD st.drag_data).2 - st.drag_data.2) / st.zoom_level } := by
  have hlen : i < st.signature_elements.length := by
    rcases List.getElem?_eq_some.mp hget with ⟨h, _⟩
    exact h
  have hstep := on_canvas_drag_spec cx cy st i e hsel hget
  refine ⟨⟨?_, ?_⟩, (dragSeq_spec ps st i e hsel hget).1⟩
  · rw [hstep]
    exact List.getElem?_set_eq_of_lt _ hlen
  · rw [hstep]

/-- C2 witness: in the concrete selected state (anchor (10, 10),
zoom 1), a drag move to (30, 50) shifts the stored position by
(20, 40). -/
theorem C2_witness :
    exStateDrag.selected_element = some 0
    ∧ exStateDrag.signature_elements[0]? = some exImageElem
    ∧ (1/2 : ℚ) ≤ exStateDrag.zoom_level ∧ exStateDrag.zoom_level ≤ 3
    ∧ (on_canvas_drag 30 50 exStateDrag).signature_elements[0]?
        = some { exImageElem with
            x := exImageElem.x + (30 - exStateDrag.drag_data.1) / exStateDrag.zoom_level
            y := exImageElem.y + (50 - exStateDrag.drag_data.2) / exStateDrag.zoom_level } :=
  ⟨rfl, rfl, by norm_num [exStateDrag, exStateA], by norm_num [exStateDrag, exStateA],
    ((C2_drag_delta exStateDrag 0 exImageElem 30 50 [] rfl rfl
      (by norm_num [exStateDrag, exStateA])
      (by norm_num [exStateDrag, exStateA])).1).1⟩

/-! ## C4: export divides by one stored base scale, not per page -/

/-- C4 counterexample: a two-page document with page widths 612 pt and
306 pt, displaying page 0, with an image element anchored to page 1 at
base-display (100, 100, 150, 75).  The export divides by the stored
base scale of the *displayed* page (700/612), producing x0 = 612/7 ≈
87.43, whereas converting with page 1's own base scale (700/306) would
give 100/(700/306) = 306/7 ≈ 43.71. -/
theorem C4_counterexample :
    save_pdf "T" (update_page_display exStateTwoPages)
      = some { filename := "doc_signed_by_USER.pdf"
               placements :=
                 [.image 1 ⟨612/7, 612/7, 1530/7, 153⟩,
                  .stamp 1 (612/7, 612/7) "Signed by USER\nT"] }
    ∧ ((612 : ℚ)/7 ≠ 100 / (700 / 306)) := by
  constructor
  · simp [save_pdf, save_output, exStateTwoPages, exStateA, exImageElem,
      update_page_display, renderSignatures, pagePlacements, elementPlacement,
      stamps, firstImageOn, stampText, hasImageOn, output_filename, sanitize,
      keepChar, List.range_succ, List.filter, List.filterMap, List.find?]
    norm_num
  · norm_num

/-- C4 (amended): a display refresh recomputes the base scale as
canvasWidth / (width of the *currently displayed* page), and export
divides every element's stored x, y, width, height by that single
stored `base_scale_factor`, regardless of which page the element is
anchored to — elements on pages of a different width are *not*
converted with their own page's scale. -/
theorem C4_uniform_base_scale (st : AppState) (now : String)
    (e : SignatureElement)
    (hload : st.pdf_loaded = true)
    (hpw : 0 < st.page_widths.getD st.current_page 0)
    (hmem : e ∈ st.signature_elements)
    (himg : e.element_type = "image")
    (hpage : e.page_num < st.page_widths.length) :
    (update_page_display st).base_scale_factor
        = st.canvas_width / st.page_widths.getD st.current_page 0
    ∧ Placement.image e.page_num
        ⟨e.x / st.base_scale_factor, e.y / st.base_scale_factor,
          (e.x + e.width) / st.base_scale_factor,
          (e.y + e.height) / st.base_scale_factor⟩
        ∈ (save_output now st).placements := by
  constructor
  · simp only [update_page_display, hload, if_true]
    show (if 0 < st.page_widths.getD st.current_page 0
        then st.canvas_width / st.page_widths.getD st.current_page 0 else 1)
      = st.canvas_width / st.page_widths.getD st.current_page 0
    rw [if_pos hpw]
  · show _ ∈ (List.range st.page_widths.length).flatMap
        (pagePlacements st.base_scale_factor st.signature_elements)
      ++ stamps st.base_scale_factor st.signature_name now
          st.signature_elements st.page_widths.length
    apply List.mem_append_left
    rw [List.mem_flatMap]
    refine ⟨e.page_num, List.mem_range.mpr hpage, ?_⟩
    unfold pagePlacements
    rw [List.mem_filterMap]
    refine ⟨e, List.mem_filter.mpr ⟨hmem, by simp⟩, ?_⟩
    unfold elementPlacement
    rw [if_pos himg]

/-- C4 witness: the theorem applied to the two-page state, giving its
recomputed base scale 700/612 and the exported rectangle of the
page-1 element divided by the stored (page-0) base scale. -/
theorem C4_witness :
    exStateTwoPages.pdf_loaded = true
    ∧ (0 : ℚ) < exStateTwoPages.page_widths.getD exStateTwoPages.current_page 0
    ∧ (update_page_display exStateTwoPages).base_scale_factor
        = exStateTwoPages.canvas_width
            / exStateTwoPages.page_widths.getD exStateTwoPages.current_page 0 :=
  ⟨rfl, by norm_num [exStateTwoPages, exStateA],
    (C4_uniform_base_scale exStateTwoPages "T"
      { exImageElem with page_num := 1 }
      rfl (by norm_num [exStateTwoPages, exStateA])
      (by simp [exStateTwoPages, exStateA]) rfl
      (by norm_num [exStateTwoPages, exStateA])).1⟩

/-! ## C8: provenance stamp exactly once per page with an image -/

theorem pagePlacements_no_stamp (s : ℚ) (els : List SignatureElement)
    (q p : ℕ) :
    ∀ pl ∈ pagePlacements s els q, isStampOn p pl = false := by
  intro pl hpl
  unfold pagePlacements at hpl
  rw [List.mem_filterMap] at hpl
  obtain ⟨a, _, ha⟩ := hpl
  unfold elementPlacement at ha
  split_ifs at ha
  · cases Option.some.inj ha
    rfl
  · cases Option.some.inj ha
    rfl

theorem filter_stamp_filterMap (f : ℕ → Option Placement) (p : ℕ)
    (hf : ∀ q y, f q = some y → isStampOn p y = (q == p)) :
    ∀ l : List ℕ, l.Nodup → p ∈ l →
      (l.filterMap f).filter (isStampOn p) = (f p).toList := by
  intro l
  induction l with
  | nil => intro _ hp; exact absurd hp (List.not_mem_nil p)
  | cons a l ih =>
    intro hnd hp
    obtain ⟨hal, hndl⟩ := List.nodup_cons.mp hnd
    have hnotl : ∀ y ∈ l.filterMap f, a = p → isStampOn p y = false := by
      intro y hy hap
      rw [List.mem_filterMap] at hy
      obtain ⟨q, hq, hfq⟩ := hy
      rw [hf q y hfq]
      subst hap
      exact beq_eq_false_iff_ne.mpr (fun h => hal (h ▸ hq))
    rw [List.filterMap_cons]
    cases hfa : f a with
    | none =>
      simp only [hfa]
      rcases List.mem_cons.mp hp with rfl | hpl
      · rw [List.filter_eq_nil_iff.mpr
          (fun y hy => by rw [hnotl y hy rfl]; exact Bool.false_ne_true), hfa]
        rfl
      · exact ih hndl hpl
    | some b =>
      simp only [hfa]
      have hb := hf a b hfa
      rcases List.mem_cons.mp hp with rfl | hpl
      · rw [List.filter_cons, hb, beq_self_eq_true]
        simp only [if_true]
        rw [List.filter_eq_nil_iff.mpr
          (fun y hy => by rw [hnotl y hy rfl]; exact Bool.false_ne_true), hfa]
        rfl
      · have hap : (a == p) = false :=
          beq_eq_false_iff_ne.mpr (fun h => hal (h ▸ hpl))
        rw [List.filter_cons, hb, hap]
        simp only [Bool.false_eq_true, if_false]
        exact ih hndl hpl

theorem hasImageOn_eq_isSome_firstImageOn (els : List SignatureElement)
    (p : ℕ) :
    hasImageOn els p = (firstImageOn els p).isSome := by
  unfold hasImageOn firstImageOn
  induction els with
  | nil => rfl
  | cons e es ih =>
    rw [List.any_cons, List.find?_cons]
    cases h : (e.page_num == p && e.element_type == "image")
    · rw [Bool.false_or]
      exact ih
    · rw [Bool.true_or]
      rfl

/-- C8: whenever `save_pdf` produces output, each document page `p`
carries exactly one provenance stamp if some element on `p` is
image-kind and none otherwise (in particular none when all of `p`'s
elements are text-kind, or `p` has no elements); the stamp sits at the
document-space top-left (x/baseScale, y/baseScale) of the first
image element on that page, which is indeed an image element anchored
to `p`. -/
theorem C8_stamp_once_per_image_page (st : AppState) (now : String)
    (out : SaveOutput) (p : ℕ)
    (hsave : save_pdf now st = some out)
    (hp : p < st.page_widths.length) :
    (out.placements.filter (isStampOn p))
        = (firstImageOn st.signature_elements p).elim []
            (fun e => [Placement.stamp p
              (e.x / st.base_scale_factor, e.y / st.base_scale_factor)
              (stampText st.signature_name now)])
    ∧ (out.placements.filter (isStampOn p)).length
        = (if hasImageOn st.signature_elements p then 1 else 0)
    ∧ (∀ e, firstImageOn st.signature_elements p = some e →
        e.page_num = p ∧ e.element_type = "image") := by
  have hout : out = save_output now st := by
    unfold save_pdf at hsave
    split_ifs at hsave
    exact (Option.some.inj hsave).symm
  subst hout
  have hmain : ((save_output now st).placements.filter (isStampOn p))
      = ((firstImageOn st.signature_elements p).map
          (fun e => Placement.stamp p
            (e.x / st.base_scale_factor, e.y / st.base_scale_factor)
            (stampText st.signature_name now))).toList := by
    show ((List.range st.page_widths.length).flatMap
        (pagePlacements st.base_scale_factor st.signature_elements)
      ++ stamps st.base_scale_factor st.signature_name now
          st.signature_elements st.page_widths.length).filter (isStampOn p)
      = _
    rw [List.filter_append]
    rw [List.filter_eq_nil_iff.mpr (fun pl hpl => by
      rw [List.mem_flatMap] at hpl
      obtain ⟨q, _, hq⟩ := hpl
      rw [pagePlacements_no_stamp st.base_scale_factor st.signature_elements
        q p pl hq]
      exact Bool.false_ne_true)]
    rw [List.nil_append]
    unfold stamps
    refine filter_stamp_filterMap _ p ?_ (List.range st.page_widths.length)
      (List.nodup_range st.page_widths.length) (List.mem_range.mpr hp)
    intro q y hqy
    rw [Option.map_eq_some'] at hqy
    obtain ⟨x, _, hx⟩ := hqy
    rw [← hx]
    rfl
  refine ⟨?_, ?_, ?_⟩
  · rw [hmain]
    cases firstImageOn st.signature_elements p <;> rfl
  · rw [hmain, hasImageOn_eq_isSome_firstImageOn]
    cases firstImageOn st.signature_elements p <;> rfl
  · intro e hfind
    have hpred := List.find?_some hfind
    rw [Bool.and_eq_true, beq_iff_eq, beq_iff_eq] at hpred
    exact hpred

/-- C8 witness: the mixed state (page 0: one text and one image
element; page 1: text only) exports with exactly one stamp, on page 0,
at the image element's document-space top-left. -/
theorem C8_witness :
    save_pdf "T" exStateStamp
      = some { filename := "doc_signed_by_USER.pdf"
               placements :=
                 [.text 0 (100, 222) "Text" 22 (0, 0, 0),
                  .image 0 ⟨100, 100, 250, 175⟩,
                  .text 1 (100, 222) "Text" 22 (0, 0, 0),
                  .stamp 0 (100, 100) "Signed by USER\nT"] }
    ∧ 0 < exStateStamp.page_widths.length
    ∧ (({ filename := "doc_signed_by_USER.pdf"
          placements :=
            [.text 0 (100, 222) "Text" 22 (0, 0, 0),
             .image 0 ⟨100, 100, 250, 175⟩,
             .text 1 (100, 222) "Text" 22 (0, 0, 0),
             .stamp 0 (100, 100) "Signed by USER\nT"] } : SaveOutput).placements.filter
        (isStampOn 0)).length
        = (if hasImageOn exStateStamp.signature_elements 0 then 1 else 0) := by
  have hsave : save_pdf "T" exStateStamp
      = some { filename := "doc_signed_by_USER.pdf"
               placements :=
                 [.text 0 (100, 222) "Text" 22 (0, 0, 0),
                  .image 0 ⟨100, 100, 250, 175⟩,
                  .text 1 (100, 222) "Text" 22 (0, 0, 0),
                  .stamp 0 (100, 100) "Signed by USER\nT"] } := by
    simp [save_pdf, save_output, exStateStamp, exStateA, exImageElem,
      default_text_element, pagePlacements, elementPlacement, colorMap,
      stamps, firstImageOn, stampText, hasImageOn, output_filename, sanitize,
      keepChar, List.range_succ, List.filter, List.filterMap, List.find?]
    norm_num
  exact ⟨hsave, by norm_num [exStateStamp, exStateA],
    (C8_stamp_once_per_image_page exStateStamp "T" _ 0 hsave
      (by norm_num [exStateStamp, exStateA])).2.1⟩

end PdfSigner
